import Mathlib

/-!
  Verification development for the markdown-link checker in
  groovy-sky/github-md-url-check (src/main.go).

  The Go program is shallowly embedded as pure Lean functions.  External
  effects (DNS lookups, HTTP requests, filesystem operations, the archive
  contents) are passed in as explicit environment values, so that every
  embedded function is executable and the theorems below can be evaluated
  on concrete inputs.

  Conventions used throughout:
    * Go strings are Lean `String`s; all scanning is done on `String.data`
      (`toList`), which matches Go's byte-level operations because every
      delimiter the program searches for is a single ASCII character.
    * a Go function that can dereference a nil pointer is embedded with
      result type `Except GoPanic _`; `GoPanic.nilDeref` marks the runtime
      panic `invalid memory address or nil pointer dereference`.
    * `http.Get` outcomes are `FetchStep` values; a URL's successive
      responses are a `List FetchStep`, and running off the end of the
      list (the unbounded 429-retry loop never meeting a non-429 answer)
      is modelled as `Option.none`.
-/

deriving instance DecidableEq for Except

namespace GithubMdUrlCheck

/-! ## Go standard-library helpers used by main.go -/

/-- Model of Go `strings.Cut(s, sep)` on character lists: split around the
first occurrence of `sep`, returning (before, after, found).  For `sep` not
present the whole input is returned as `before`, as in Go. -/
def cutChars (sep : List Char) : List Char → List Char × List Char × Bool
  | [] => ([], [], false)
  | c :: rest =>
    if sep.isPrefixOf (c :: rest) then ([], (c :: rest).drop sep.length, true)
    else
      let r := cutChars sep rest
      (c :: r.1, r.2.1, r.2.2)

/-- Go `strings.Cut(s, sep)`.  The program only ever calls it with a
non-empty separator (`"/"` or a file's base name). -/
def goCut (s sep : String) : String × String × Bool :=
  let r := cutChars sep.toList s.toList
  (⟨r.1⟩, ⟨r.2.1⟩, r.2.2)

/-- Go `strings.Contains(s, c)` for the single-character needles the
program uses (`":"`). -/
def strContainsChar (s : String) (c : Char) : Bool :=
  s.toList.contains c

/-- Go `strings.HasPrefix(s, p)`. -/
def strHasPrefix (s p : String) : Bool :=
  p.toList.isPrefixOf s.toList

/-- Split on every `'.'`, Go `strings.Split(s, ".")` (empty parts kept,
the whole string returned as a single part when no dot occurs). -/
def splitOnDot : List Char → List (List Char)
  | [] => [[]]
  | c :: rest =>
    match splitOnDot rest with
    | [] => [[]]
    | g :: gs => if c = '.' then [] :: g :: gs else (c :: g) :: gs

/-- main.go:119-123 `getFileExtension`: lower-case the string, split on
`"."` and return the last piece.  Go's `strings.ToLower` is Unicode-aware;
ASCII folding is faithful here because the result is only ever compared
with `"md"`. -/
def getFileExtension (s : String) : String :=
  ⟨(splitOnDot (s.toList.map Char.toLower)).getLastD []⟩

/-- Go `path.Base` as used by `zip.FileHeader.FileInfo().Name()`: drop
trailing slashes and keep the last path element. -/
def pathBase (s : String) : String :=
  if s = "" then "." else
  let r := s.toList.reverse.dropWhile (fun c => c = '/')
  if r = [] then "/" else ⟨(r.takeWhile (fun c => c ≠ '/')).reverse⟩

/-- Archive entries are directories exactly when their stored name ends in
`'/'` (Go `zip.FileHeader.FileInfo().IsDir()`). -/
def entryIsDir (name : String) : Bool :=
  match name.toList.reverse with
  | '/' :: _ => true
  | _ => false

/-! ## The absolute-URL regular expression (main.go:145)

  `(^https?:\/\/)([\da-z\.-]+)\.([a-z\.]{2,6})\/?.*` is anchored at the
  start of the target, so `FindString` returns a non-empty match exactly
  when the target begins with `http://` or `https://` followed by a
  nonempty run of `[0-9a-z.-]` characters, a literal dot and at least two
  `[a-z.]` characters.  When it matches, the trailing greedy `.*` extends
  the match to the end of the line. -/

/-- Character class `[\da-z\.-]` of the host group. -/
def isHostChar (c : Char) : Bool :=
  c.isDigit || ('a' ≤ c && c ≤ 'z') || c = '.' || c = '-'

/-- Character class `[a-z\.]` of the trailing group. -/
def isTldChar (c : Char) : Bool :=
  ('a' ≤ c && c ≤ 'z') || c = '.'

/-- At least two `[a-z\.]` characters follow (the `{2,6}` repetition needs
only its lower bound for a match to exist, the rest is absorbed by `.*`). -/
def tldAhead : List Char → Bool
  | a :: b :: _ => isTldChar a && isTldChar b
  | _ => false

/-- After at least one host character: either the separating dot with the
trailing group behind it, or one more host character. -/
def hostDotTld : List Char → Bool
  | [] => false
  | c :: rest => (c = '.' && tldAhead rest) || (isHostChar c && hostDotTld rest)

/-- The part after the scheme: `([\da-z\.-]+)\.([a-z\.]{2,6})` matches a
prefix of `cs`. -/
def matchesHostPart : List Char → Bool
  | [] => false
  | c :: rest => isHostChar c && hostDotTld rest

/-- Whether the anchored absolute-URL pattern of main.go:145 matches the
target at all. -/
def matchesAbsUrl (l : String) : Bool :=
  if strHasPrefix l "http://" then matchesHostPart (l.toList.drop 7)
  else if strHasPrefix l "https://" then matchesHostPart (l.toList.drop 8)
  else false

/-- Result of `regexp.FindString` for the pattern of main.go:145: the empty
string when there is no match, otherwise the match, which the trailing
greedy `.*` extends to the end of the line. -/
def absUrlMatch (l : String) : String :=
  if matchesAbsUrl l then ⟨l.toList.takeWhile (fun c => c ≠ '\n')⟩ else ""

/-! ## Stripping the markdown syntax around a target (main.go:141-143) -/

/-- Length of the shortest label such that `"]("` follows, as matched by
the lazy group in `(^\[(.*?)]\()`; `.` does not match a newline. -/
def labelEnd : List Char → Option Nat
  | ']' :: '(' :: _ => some 0
  | c :: rest => if c = '\n' then none else (labelEnd rest).map (· + 1)
  | [] => none

/-- main.go:141-143: drop the final `')'` of the raw regex match, then drop
the `[label](` prefix found by `(^\[(.*?)]\()` (nothing is dropped when
that pattern does not match). -/
def stripLinkMarkup (s : String) : String :=
  match s.toList.dropLast with
  | '[' :: rest =>
    match labelEnd rest with
    | some k => ⟨rest.drop (k + 2)⟩
    | none => ⟨'[' :: rest⟩
  | cs => ⟨cs⟩

/-! ## Link classification and resolution (main.go:144-160) -/

/-- main.go:152-158, the path fallback: a target that starts with `'/'` is
root-relative and is appended to the repository web root, anything else is
appended to web root plus the file's relative directory. -/
def pathRelativeUrl (webUrl rpath l : String) : String :=
  if (!(l == "")) && strHasPrefix l "/" then webUrl ++ l
  else webUrl ++ rpath ++ l

/-- main.go:144-160: the resolved URL for a stripped target `l`.  `dns`
answers whether `net.LookupIP` succeeds for a host name.  When the target
contains a `':'` or already matches the absolute-URL pattern, the value of
`FindString` (possibly empty) is kept as-is. -/
def resolveLinkUrl (dns : String → Bool) (webUrl rpath l : String) : String :=
  if (!(strContainsChar l ':')) && (absUrlMatch l == "") then
    if dns ((goCut l "/").1) && (!(getFileExtension l == "md")) then "http://" ++ l
    else pathRelativeUrl webUrl rpath l
  else absUrlMatch l

/-! ## Network validation (main.go:125-134 and 161-182) -/

/-- One observed `http.Get` outcome: a status code or a transport error. -/
inductive FetchStep where
  | status (code : Nat)
  | netErr (msg : String)
deriving DecidableEq

/-- What the retry loop of `getUrlWithDelay` ends with. -/
inductive RetryResult where
  | done (code : Nat)
  | nilPanic
deriving DecidableEq

/-- main.go:125-134 `getUrlWithDelay`: sleep 60 time units, issue the GET,
recurse while the status is 429.  The returned `Nat` is the total time
slept.  When `http.Get` errors, the response is nil and the immediate
`res.Body` / `res.StatusCode` dereferences panic: `RetryResult.nilPanic`.
`none` means the modelled response stream was exhausted while the loop was
still retrying. -/
def getUrlWithDelay : List FetchStep → Option (RetryResult × Nat)
  | [] => none
  | .netErr _ :: _ => some (.nilPanic, 60)
  | .status c :: rest =>
    if c = 429 then
      match getUrlWithDelay rest with
      | none => none
      | some (r, t) => some (r, 60 + t)
    else some (.done c, 60)

/-- Outcome of `checkMdLink` for one link: the `result` string and `ok`
flag it returns, together with how they were produced. -/
inductive LinkCheck where
  | email (result : String)
  | netFail (url : String) (result : String)
  | httpDone (url : String) (code : Nat) (result : String) (ok : Bool)
  | crashed (url : String)
deriving DecidableEq

/-- The `ok` flag returned by `checkMdLink` (false by default, set on the
email branch and on a status below 400; `crashed` never returns). -/
def LinkCheck.okFlag : LinkCheck → Bool
  | .email _ => true
  | .netFail _ _ => false
  | .httpDone _ _ _ ok => ok
  | .crashed _ => false

/-- The `result` string returned by `checkMdLink`. -/
def LinkCheck.resultMsg : LinkCheck → String
  | .email r => r
  | .netFail _ r => r
  | .httpDone _ _ r _ => r
  | .crashed _ => ""

/-- main.go:173-178: map the final status code to the result string and
`ok` flag. -/
def judgeStatus (url : String) (code : Nat) : LinkCheck :=
  if 400 ≤ code then
    .httpDone url code ("[ERR] " ++ url ++ " response: " ++ Nat.repr code) false
  else
    .httpDone url code ("[INF] " ++ url ++ " response: " ++ Nat.repr code) true

/-- main.go:144-182, the body of `checkMdLink` on an already stripped
target `l`.  `net url` lists the successive responses GET requests to
`url` would observe.  The `mailto:` branch returns before any request is
made; otherwise one GET is issued, a 429 hands the remaining stream to
`getUrlWithDelay`, and a network error inside that retry loop crashes the
process (`LinkCheck.crashed`). -/
def checkMdLinkTarget (dns : String → Bool) (net : String → List FetchStep)
    (webUrl rpath l : String) : Option LinkCheck :=
  if strHasPrefix l "mailto:" then
    some (.email ("[INF] " ++ resolveLinkUrl dns webUrl rpath l ++ " is not URL"))
  else
    match net (resolveLinkUrl dns webUrl rpath l) with
    | [] => none
    | .netErr m :: _ => some (.netFail (resolveLinkUrl dns webUrl rpath l)
        ("[ERR] Couldn't reach URL: " ++ m))
    | .status c :: rest =>
      if c = 429 then
        match getUrlWithDelay rest with
        | none => none
        | some (.nilPanic, _) => some (.crashed (resolveLinkUrl dns webUrl rpath l))
        | some (.done c2, _) => some (judgeStatus (resolveLinkUrl dns webUrl rpath l) c2)
      else some (judgeStatus (resolveLinkUrl dns webUrl rpath l) c)

/-- main.go:137-182 `checkMdLink`: strip the markdown syntax from the raw
regex match, then classify and validate the target. -/
def checkMdLink (dns : String → Bool) (net : String → List FetchStep)
    (webUrl rpath raw : String) : Option LinkCheck :=
  checkMdLinkTarget dns net webUrl rpath (stripLinkMarkup raw)

/-! ## The report data model (main.go:45-83) -/

/-- main.go:62-66 `MdLink` (a checked URL). -/
structure MdLinkM where
  link : String
  state : String
  succeed : Bool
deriving DecidableEq

/-- main.go:69-72 `MdFile` (a checked markdown file and its failing links). -/
structure MdFileM where
  path : String
  links : List MdLinkM
deriving DecidableEq

/-- main.go:75-83 `MdReport`.  Pointer-typed fields that matter only as
"set or nil" are `Option`s; in particular `state = none` is the nil
`State` pointer and `mdFileList = none` the nil `MdFileList`. -/
structure MdReportM where
  webUrl : String
  zipUrl : String
  zipName : String
  zipPath : String
  state : Option String
  allLinksOK : Bool
  mdFileList : Option (List MdFileM)
deriving DecidableEq

/-- A Go runtime panic; the program's only panics are nil-pointer
dereferences. -/
inductive GoPanic where
  | nilDeref
deriving DecidableEq

/-- Writing `*md.State = s` assigns through the `State` pointer: a panic
when the pointer is nil, otherwise an in-place update of the pointee. -/
def assignStateDeref (md : MdReportM) (s : String) : Except GoPanic MdReportM :=
  match md.state with
  | none => .error .nilDeref
  | some _ => .ok { md with state := some s }

/-! ## Markdown extraction over archive entries (main.go:186-256) -/

/-- What reading one archive entry yields: `f.Open()` error, `ReadAll`
error, or the decoded content. -/
inductive EntryData where
  | openErr (msg : String)
  | readErr (msg : String)
  | content (text : String)
deriving DecidableEq

/-- One entry of the downloaded zip archive. -/
structure ZipEntry where
  name : String
  data : EntryData
deriving DecidableEq

/-- main.go:187-194: the entry's repository-relative path (everything
after the synthetic `<repo>-<branch>/` top folder) and the relative
directory used for link resolution: the prefix of that path before the
first occurrence of the file's base name, wrapped in slashes. -/
def entryPaths (entryName : String) : String × String :=
  let fileFullPath := (goCut entryName "/").2.1
  let rel := (goCut fileFullPath (pathBase entryName)).1
  (fileFullPath, if rel = "" then "/" else "/" ++ rel ++ "/")

/-- main.go:217-225: run `checkMdLink` on every raw regex match, clearing
`AllLinksOK` and collecting an `MdLink` row for each link whose `ok` flag
is false.  A crash inside a link's retry loop panics the goroutine. -/
def procLinks (dns : String → Bool) (net : String → List FetchStep)
    (webUrl rpath : String) :
    Bool → List MdLinkM → List String → Option (Except GoPanic (Bool × List MdLinkM))
  | allOK, links, [] => some (.ok (allOK, links))
  | allOK, links, raw :: rest =>
    match checkMdLink dns net webUrl rpath raw with
    | none => none
    | some (.crashed _) => some (.error .nilDeref)
    | some r =>
      if r.okFlag then procLinks dns net webUrl rpath allOK links rest
      else procLinks dns net webUrl rpath false
        (links ++ [⟨raw, r.resultMsg, false⟩]) rest

/-- main.go:186-237 `findAndCheckMdFile`: skip directories and
non-markdown entries; on an open or read failure append an error to
`*md.State` (reading the nil `State` pointer when it was never set); else
check every extracted link and, when failing links exist, append the
file's report.  `extract` stands for the markdown-link regex matcher of
main.go:216 applied to the entry's content. -/
def findAndCheckMdFile (dns : String → Bool) (net : String → List FetchStep)
    (extract : String → List String) (md : MdReportM) (e : ZipEntry) :
    Option (Except GoPanic MdReportM) :=
  if entryIsDir e.name then some (.ok md)
  else if getFileExtension (pathBase e.name) == "md" then
    match e.data with
    | .openErr msg =>
      match md.state with
      | none => some (.error .nilDeref)
      | some s => some (.ok { md with
          state := some (s ++ " [ERR] Couldn't open " ++ pathBase e.name ++ " file: \n\t" ++ msg) })
    | .readErr msg =>
      match md.state with
      | none => some (.error .nilDeref)
      | some s => some (.ok { md with
          state := some (s ++ " [ERR] Couldn't load " ++ pathBase e.name ++ ": \n\t" ++ msg) })
    | .content text =>
      match procLinks dns net md.webUrl (entryPaths e.name).2 md.allLinksOK [] (extract text) with
      | none => none
      | some (.error p) => some (.error p)
      | some (.ok (allOK, links)) =>
        if 0 < links.length then
          some (.ok { md with allLinksOK := allOK, mdFileList := some (md.mdFileList.getD [] ++ [⟨(entryPaths e.name).1, links⟩]) })
        else some (.ok { md with allLinksOK := allOK })
  else some (.ok md)

/-- Fold `findAndCheckMdFile` over the archive entries (main.go:249-251). -/
def processEntries (dns : String → Bool) (net : String → List FetchStep)
    (extract : String → List String) :
    MdReportM → List ZipEntry → Option (Except GoPanic MdReportM)
  | md, [] => some (.ok md)
  | md, e :: rest =>
    match findAndCheckMdFile dns net extract md e with
    | none => none
    | some (.error p) => some (.error p)
    | some (.ok md1) => processEntries dns net extract md1 rest

/-! ## Archive download (main.go:259-287) -/

/-- Possible failures of the local/remote steps of `downloadGitArchive`:
`os.MkdirAll`, `os.Create`, `http.Get` (error message, or status code and
body on success) and `io.Copy`. -/
structure DlEnv where
  mkdirErr : Option String
  createErr : Option String
  getResult : Except String (Nat × String)
  copyErr : Option String

/-- How `downloadGitArchive` returned: with a non-nil error after writing
the failure into `State`, or successfully with the archive file holding
the full response body. -/
inductive DlOutcome where
  | failed (md : MdReportM)
  | stored (md : MdReportM) (body : String)
deriving DecidableEq

/-- main.go:259-287 `downloadGitArchive`: create the directory and file,
issue the GET and copy the body into the file.  The response status code
is never examined.  Every error path assigns `*md.State` through the
`State` pointer before returning the error. -/
def downloadGitArchive (env : DlEnv) (md : MdReportM) : Except GoPanic DlOutcome :=
  match env.mkdirErr with
  | some e =>
    (assignStateDeref md ("[ERR] Couldn't create " ++ md.zipPath ++ " path.\n\t" ++ e)).map .failed
  | none =>
  match env.createErr with
  | some e =>
    (assignStateDeref md ("[ERR] Couldn't create " ++ md.zipPath ++ "/" ++ md.zipName
      ++ " file.\n\t" ++ e)).map .failed
  | none =>
  match env.getResult with
  | .error e =>
    (assignStateDeref md ("[ERR] Couldn't download " ++ md.zipUrl ++ " file.\n\t" ++ e)).map .failed
  | .ok (_statusCode, body) =>
  match env.copyErr with
  | some e =>
    (assignStateDeref md ("[ERR] Couldn't store downloaded file.\n\t" ++ e)).map .failed
  | none => .ok (.stored md body)

/-! ## Per-repository pipeline (main.go:240-256 and 290-315) -/

/-- main.go:45-59 `Repository`, reduced to the fields the pipeline reads. -/
structure RepositoryM where
  name : String
  htmlUrl : String
  defaultBranch : String
deriving DecidableEq

/-- The external world of one repository worker: download step outcomes,
the opened archive (or `zip.OpenReader`'s error), the `os.RemoveAll`
cleanup outcome, DNS, per-URL response streams, and the regex matcher. -/
structure RepoEnv where
  dl : DlEnv
  archive : Except String (List ZipEntry)
  cleanupErr : Option String
  dns : String → Bool
  net : String → List FetchStep
  extract : String → List String

/-- main.go:240-256 `checkMdFiles`: open the archive (writing the error
through the `State` pointer on failure), process every entry, then remove
the download directory (again writing through `State` on failure). -/
def checkMdFiles (env : RepoEnv) (md : MdReportM) : Option (Except GoPanic MdReportM) :=
  match env.archive with
  | .error e =>
    some ((assignStateDeref md ("[ERR] Couldn't open archive " ++ md.zipName ++ ".\n\t" ++ e)))
  | .ok entries =>
    match processEntries env.dns env.net env.extract md entries with
    | none => none
    | some (.error p) => some (.error p)
    | some (.ok md1) =>
      match env.cleanupErr with
      | some e =>
        some ((assignStateDeref md1 ("[ERR] Couldn't cleanup " ++ md1.zipName ++ ".\n\t" ++ e)))
      | none => some (.ok md1)

/-- main.go:307-313: the final top-level state.  A nil `MdFileList` is
replaced by the no-markdown message; a non-nil list with `AllLinksOK`
still true by the no-broken-links message. -/
def setFinalState (md : MdReportM) : MdReportM :=
  match md.mdFileList with
  | none => { md with state := some "[INF] No markdown links were found." }
  | some _ =>
    if md.allLinksOK then { md with state := some "[INF] No inactive/broken links were found." }
    else md

/-- main.go:290-315 `CheckGitMdLinks` for one repository worker: build the
report skeleton, download the archive, on success extract and check the
markdown files, then pick the final top-level state and send the report.
The `sync.WaitGroup` interaction is modelled separately below. -/
def CheckGitMdLinks (execPath : String) (r : RepositoryM) (env : RepoEnv) :
    Option (Except GoPanic MdReportM) :=
  let md0 : MdReportM :=
    { webUrl := r.htmlUrl ++ "/blob/" ++ r.defaultBranch,
      zipUrl := r.htmlUrl ++ "/archive/refs/heads/" ++ r.defaultBranch ++ ".zip",
      zipName := r.name ++ ".zip",
      zipPath := execPath ++ "/" ++ r.name,
      state := none,
      allLinksOK := true,
      mdFileList := none }
  match downloadGitArchive env.dl md0 with
  | .error p => some (.error p)
  | .ok (.failed md1) => some (.ok (setFinalState md1))
  | .ok (.stored md1 _) =>
    match checkMdFiles env md1 with
    | none => none
    | some (.error p) => some (.error p)
    | some (.ok md2) => some (.ok (setFinalState md2))

/-! ## The download barrier (main.go:290, 302, 304 and 442-450)

  `CheckGitMdLinks` takes its `sync.WaitGroup` parameter BY VALUE.  The
  main loop (main.go:444-448) runs `wg.Add(1)` and then evaluates the
  `go` statement's arguments, copying main's WaitGroup into the new
  goroutine; `wg.Done()` is only ever called on those private copies, so
  main's counter is never decremented and worker `i`'s copy starts with
  counter `i + 1`. -/

/-- Counter held by worker `i`'s private copy of the WaitGroup at launch:
one `wg.Add(1)` per already-launched worker plus its own. -/
def wgCopyCounter (i : Nat) : Nat := i + 1

/-- Whether `wg.Wait()` (main.go:304) ever returns for worker `i`: its
private counter after its own `wg.Done()` (main.go:302) must be zero;
no other goroutine holds this copy, so the counter never changes again. -/
def barrierWaitReturns (i : Nat) : Bool :=
  (wgCopyCounter i - 1) == 0

/-- Whether worker `i` ever reaches `ch <- *md` (main.go:314): a worker
whose download succeeded must first get through `wg.Wait()`. -/
def workerDeliversReport (i : Nat) (downloadOk : Bool) : Bool :=
  !downloadOk || barrierWaitReturns i

/-! ## Claim theorems -/

/-- Any target matched by the anchored absolute-URL pattern begins with a
scheme and therefore contains a `':'`. -/
theorem contains_colon_of_matchesAbsUrl (l : String) (h : matchesAbsUrl l = true) :
    strContainsChar l ':' = true := by
  unfold matchesAbsUrl at h
  unfold strContainsChar
  by_cases h7 : strHasPrefix l "http://" = true
  · have hp : ("http://".toList) <+: l.toList := List.isPrefixOf_iff_prefix.mp h7
    have hm : ':' ∈ l.toList := hp.subset (by decide)
    exact List.elem_iff.mpr hm
  · by_cases h8 : strHasPrefix l "https://" = true
    · have hp : ("https://".toList) <+: l.toList := List.isPrefixOf_iff_prefix.mp h8
      have hm : ':' ∈ l.toList := hp.subset (by decide)
      exact List.elem_iff.mpr hm
    · rw [eq_false_of_ne_true h7, eq_false_of_ne_true h8] at h
      simp at h

/-- C2: for a target with no `':'` that does not match the absolute-URL
pattern, the classifier cuts the candidate host at the first `'/'`, and
exactly when DNS resolves that host and the trailing extension is not
`md` the resolved URL is `http://` prepended to the whole target;
otherwise classification falls through to the path-relative rule
(main.go:144-159, main.go:119-123). -/
theorem claim_c2_bare_domain_heuristic (dns : String → Bool) (webUrl rpath l : String)
    (hc : strContainsChar l ':' = false) (habs : matchesAbsUrl l = false) :
    ((dns ((goCut l "/").1) && (!(getFileExtension l == "md"))) = true →
      resolveLinkUrl dns webUrl rpath l = "http://" ++ l)
    ∧ ((dns ((goCut l "/").1) && (!(getFileExtension l == "md"))) = false →
      resolveLinkUrl dns webUrl rpath l = pathRelativeUrl webUrl rpath l) := by
  unfold resolveLinkUrl absUrlMatch
  rw [hc, habs]
  constructor
  · intro h
    rw [h]
    simp
  · intro h
    rw [h]
    simp

/-- Witness for C2 at the target `example.com/page` in a DNS environment
where `example.com` resolves. -/
theorem claim_c2_witness :
    strContainsChar "example.com/page" ':' = false
    ∧ matchesAbsUrl "example.com/page" = false
    ∧ ((fun s => s == "example.com") ((goCut "example.com/page" "/").1)
        && (!(getFileExtension "example.com/page" == "md"))) = true
    ∧ resolveLinkUrl (fun s => s == "example.com") "W" "/" "example.com/page"
        = "http://example.com/page" :=
  ⟨by decide, by decide, by decide,
    (claim_c2_bare_domain_heuristic (fun s => s == "example.com") "W" "/"
      "example.com/page" (by decide) (by decide)).1 (by decide)⟩

/-- C1 counterexample: the target `x.md` seen in file `a/b.md` (archive
entry `repo-main/a/b.md`) does NOT resolve to `<web root>/a/x.md`.  The
relative directory computed by main.go:188-194 keeps the trailing slash of
the `strings.Cut` prefix and wraps it in two more slashes, giving `/a//`,
so the resolved URL is `<web root>/a//x.md`. -/
theorem claim_c1_counterexample :
    (entryPaths "repo-main/a/b.md").2 = "/a//"
    ∧ resolveLinkUrl (fun _ => false) "W" (entryPaths "repo-main/a/b.md").2 "x.md"
        = "W/a//x.md"
    ∧ ("W/a//x.md" == "W" ++ "/a/" ++ "x.md") = false := by
  exact ⟨by decide, by decide, by decide⟩

/-- C1 as amended: for a path-relative target, a leading `'/'` resolves to
web root ++ target, and any other target resolves to web root ++ the
file's computed relative directory ++ target, where that directory wraps
the prefix before the first occurrence of the file's base name in slashes
(keeping the prefix's own trailing slash).  In particular `/docs/x.md`
seen in `a/b.md` resolves to `<web root>/docs/x.md` while `x.md` resolves
to `<web root>/a//x.md`, with a doubled slash. -/
theorem claim_c1_path_resolution (dns : String → Bool) (webUrl entryName l : String)
    (hc : strContainsChar l ':' = false)
    (hmd : (dns ((goCut l "/").1) && (!(getFileExtension l == "md"))) = false) :
    (strHasPrefix l "/" = true →
      resolveLinkUrl dns webUrl (entryPaths entryName).2 l = webUrl ++ l)
    ∧ (strHasPrefix l "/" = false →
      resolveLinkUrl dns webUrl (entryPaths entryName).2 l
        = webUrl ++ (entryPaths entryName).2 ++ l)
    ∧ resolveLinkUrl dns webUrl (entryPaths "repo-main/a/b.md").2 "/docs/x.md"
        = webUrl ++ "/docs/x.md"
    ∧ resolveLinkUrl dns webUrl (entryPaths "repo-main/a/b.md").2 "x.md"
        = webUrl ++ "/a//" ++ "x.md" := by
  have hgen : ∀ rp t : String, strContainsChar t ':' = false →
      (dns ((goCut t "/").1) && (!(getFileExtension t == "md"))) = false →
      resolveLinkUrl dns webUrl rp t = pathRelativeUrl webUrl rp t := by
    intro rp t h1 h3
    have h2 : matchesAbsUrl t = false := by
      cases hb : matchesAbsUrl t with
      | false => rfl
      | true =>
        rw [contains_colon_of_matchesAbsUrl t hb] at h1
        exact absurd h1 (by decide)
    unfold resolveLinkUrl absUrlMatch
    rw [h1, h2, h3]
    simp
  have hext : ∀ t : String, getFileExtension t = "md" →
      (dns ((goCut t "/").1) && (!(getFileExtension t == "md"))) = false := by
    intro t ht
    rw [ht]
    simp
  refine ⟨?_, ?_, ?_, ?_⟩
  · intro hsl
    rw [hgen _ l hc hmd, pathRelativeUrl, hsl]
    have hne : (l == "") = false := by
      cases he : (l == "") with
      | false => rfl
      | true =>
        have hl : l = "" := by simpa using he
        subst hl
        exact absurd hsl (by decide)
    rw [hne]
    simp
  · intro hsl
    rw [hgen _ l hc hmd, pathRelativeUrl, hsl]
    simp
  · rw [hgen _ "/docs/x.md" (by decide) (hext _ (by decide)), pathRelativeUrl,
      if_pos (show ((!("/docs/x.md" == "")) && strHasPrefix "/docs/x.md" "/") = true from by decide)]
  · rw [hgen _ "x.md" (by decide) (hext _ (by decide)), pathRelativeUrl,
      if_neg (show ¬ (((!("x.md" == "")) && strHasPrefix "x.md" "/") = true) from by decide),
      show (entryPaths "repo-main/a/b.md").2 = "/a//" from by decide]

/-- Witness for the amended C1 at target `x.md` in file `a/b.md`. -/
theorem claim_c1_witness :
    strContainsChar "x.md" ':' = false
    ∧ ((fun _ => false : String → Bool) ((goCut "x.md" "/").1)
        && (!(getFileExtension "x.md" == "md"))) = false
    ∧ strHasPrefix "x.md" "/" = false
    ∧ resolveLinkUrl (fun _ => false) "W" (entryPaths "repo-main/a/b.md").2 "x.md"
        = "W" ++ (entryPaths "repo-main/a/b.md").2 ++ "x.md" :=
  ⟨by decide, by decide, by decide,
    (claim_c1_path_resolution (fun _ => false) "W" "repo-main/a/b.md" "x.md"
      (by decide) (by decide)).2.1 (by decide)⟩

/-- C3: a target beginning with `mailto:` short-circuits before any HTTP
request — the outcome does not depend on the response environment at all —
returns the informational sentinel with the `ok` flag true, and processing
the link in `findAndCheckMdFile` leaves `AllLinksOK` and the collected
rows unchanged (main.go:161-166, main.go:217-225). -/
theorem claim_c3_mailto_bypass (dns : String → Bool) (net net2 : String → List FetchStep)
    (webUrl rpath l raw : String) (rawRest : List String)
    (allOK : Bool) (links : List MdLinkM)
    (hm : strHasPrefix l "mailto:" = true) (hstrip : stripLinkMarkup raw = l) :
    checkMdLinkTarget dns net webUrl rpath l
        = some (.email ("[INF] " ++ resolveLinkUrl dns webUrl rpath l ++ " is not URL"))
    ∧ checkMdLinkTarget dns net webUrl rpath l = checkMdLinkTarget dns net2 webUrl rpath l
    ∧ LinkCheck.okFlag (.email ("[INF] " ++ resolveLinkUrl dns webUrl rpath l ++ " is not URL")) = true
    ∧ procLinks dns net webUrl rpath allOK links (raw :: rawRest)
        = procLinks dns net webUrl rpath allOK links rawRest := by
  have hch : checkMdLinkTarget dns net webUrl rpath l
      = some (.email ("[INF] " ++ resolveLinkUrl dns webUrl rpath l ++ " is not URL")) := by
    unfold checkMdLinkTarget
    rw [hm]
    simp
  have hch2 : checkMdLinkTarget dns net2 webUrl rpath l
      = some (.email ("[INF] " ++ resolveLinkUrl dns webUrl rpath l ++ " is not URL")) := by
    unfold checkMdLinkTarget
    rw [hm]
    simp
  refine ⟨hch, by rw [hch, hch2], rfl, ?_⟩
  show (match checkMdLink dns net webUrl rpath raw with
    | none => none
    | some (.crashed _) => some (.error .nilDeref)
    | some r =>
      if r.okFlag then procLinks dns net webUrl rpath allOK links rawRest
      else procLinks dns net webUrl rpath false
        (links ++ [⟨raw, r.resultMsg, false⟩]) rawRest) = procLinks dns net webUrl rpath allOK links rawRest
  rw [checkMdLink, hstrip, hch]
  exact rfl

/-- Witness for C3 at the raw match `[mail](mailto:dev@example.com)`. -/
theorem claim_c3_witness :
    strHasPrefix "mailto:dev@example.com" "mailto:" = true
    ∧ stripLinkMarkup "[mail](mailto:dev@example.com)" = "mailto:dev@example.com"
    ∧ checkMdLinkTarget (fun _ => false) (fun _ => []) "W" "/" "mailto:dev@example.com"
        = some (.email ("[INF] "
            ++ resolveLinkUrl (fun _ => false) "W" "/" "mailto:dev@example.com" ++ " is not URL"))
    ∧ procLinks (fun _ => false) (fun _ => []) "W" "/" true []
        ["[mail](mailto:dev@example.com)"]
        = procLinks (fun _ => false) (fun _ => []) "W" "/" true [] [] :=
  ⟨by decide, by decide,
    (claim_c3_mailto_bypass (fun _ => false) (fun _ => []) (fun _ => [.status 500]) "W" "/"
      "mailto:dev@example.com" "[mail](mailto:dev@example.com)" [] true []
      (by decide) (by decide)).1,
    (claim_c3_mailto_bypass (fun _ => false) (fun _ => []) (fun _ => [.status 500]) "W" "/"
      "mailto:dev@example.com" "[mail](mailto:dev@example.com)" [] true []
      (by decide) (by decide)).2.2.2⟩

/-- C10: a target containing a `':'` that is neither a `mailto:` link nor
a match of the absolute-URL pattern keeps the empty `FindString` result as
its resolved URL, the validator issues its GET on that empty string, and
since that GET fails the link is recorded as a non-ok row and
`AllLinksOK` is cleared (main.go:144-167, main.go:217-224).  The
hypothesis on `net ""` reflects that Go's `http.Get("")` always returns an
unsupported-protocol-scheme error. -/
theorem claim_c10_colon_fallthrough (dns : String → Bool) (net : String → List FetchStep)
    (webUrl rpath l raw m : String) (rest : List FetchStep) (rawRest : List String)
    (allOK : Bool) (links : List MdLinkM)
    (hc : strContainsChar l ':' = true)
    (hm : strHasPrefix l "mailto:" = false)
    (habs : matchesAbsUrl l = false)
    (hstrip : stripLinkMarkup raw = l)
    (hnet : net "" = .netErr m :: rest) :
    resolveLinkUrl dns webUrl rpath l = ""
    ∧ checkMdLinkTarget dns net webUrl rpath l
        = some (.netFail "" ("[ERR] Couldn't reach URL: " ++ m))
    ∧ procLinks dns net webUrl rpath allOK links (raw :: rawRest)
        = procLinks dns net webUrl rpath false
            (links ++ [⟨raw, "[ERR] Couldn't reach URL: " ++ m, false⟩]) rawRest := by
  have hres : resolveLinkUrl dns webUrl rpath l = "" := by
    unfold resolveLinkUrl absUrlMatch
    rw [hc, habs]
    simp
  have hch : checkMdLinkTarget dns net webUrl rpath l
      = some (.netFail "" ("[ERR] Couldn't reach URL: " ++ m)) := by
    unfold checkMdLinkTarget
    rw [hm, hres, hnet]
    simp
  refine ⟨hres, hch, ?_⟩
  show (match checkMdLink dns net webUrl rpath raw with
    | none => none
    | some (.crashed _) => some (.error .nilDeref)
    | some r =>
      if r.okFlag then procLinks dns net webUrl rpath allOK links rawRest
      else procLinks dns net webUrl rpath false
        (links ++ [⟨raw, r.resultMsg, false⟩]) rawRest)
    = procLinks dns net webUrl rpath false
        (links ++ [⟨raw, "[ERR] Couldn't reach URL: " ++ m, false⟩]) rawRest
  rw [checkMdLink, hstrip, hch]
  exact rfl

/-- Witness for C10 at the raw match `[f](ftp://files.example.com/a.txt)`
with the deterministic failure of `http.Get("")`. -/
theorem claim_c10_witness :
    strContainsChar "ftp://files.example.com/a.txt" ':' = true
    ∧ strHasPrefix "ftp://files.example.com/a.txt" "mailto:" = false
    ∧ matchesAbsUrl "ftp://files.example.com/a.txt" = false
    ∧ resolveLinkUrl (fun _ => false) "W" "/" "ftp://files.example.com/a.txt" = ""
    ∧ procLinks (fun _ => false)
        (fun u => if u == "" then [.netErr "unsupported protocol scheme"] else [])
        "W" "/" true [] ["[f](ftp://files.example.com/a.txt)"]
        = procLinks (fun _ => false)
            (fun u => if u == "" then [.netErr "unsupported protocol scheme"] else [])
            "W" "/" false
            [⟨"[f](ftp://files.example.com/a.txt)",
              "[ERR] Couldn't reach URL: " ++ "unsupported protocol scheme", false⟩] [] :=
  ⟨by decide, by decide, by decide,
    (claim_c10_colon_fallthrough (fun _ => false)
      (fun u => if u == "" then [.netErr "unsupported protocol scheme"] else [])
      "W" "/" "ftp://files.example.com/a.txt" "[f](ftp://files.example.com/a.txt)"
      "unsupported protocol scheme" [] [] true []
      (by decide) (by decide) (by decide) (by decide) (by decide)).1,
    by
      have h := (claim_c10_colon_fallthrough (fun _ => false)
        (fun u => if u == "" then [.netErr "unsupported protocol scheme"] else [])
        "W" "/" "ftp://files.example.com/a.txt" "[f](ftp://files.example.com/a.txt)"
        "unsupported protocol scheme" [] [] true []
        (by decide) (by decide) (by decide) (by decide) (by decide)).2.2
      simpa using h⟩

/-- Responses seen by the URL checked for C4: first a 429, then a hard
network error on the retried request. -/
def netC4 : String → List FetchStep := fun u =>
  if u == "https://slow.example.com/a" then
    [.status 429, .netErr "read: connection reset by peer"] else []

/-- C4: the retry loop of `getUrlWithDelay` does sleep 60 units per
attempt and does run until the first non-429 status, whose code alone is
judged (no 429 ever reaches the ≥ 400 comparison); but when a retried
request fails with a hard network error the nil response is dereferenced
(`defer res.Body.Close()` and the status check at main.go:128-129 run
before `err` is inspected) and the goroutine panics instead of producing
an outcome for the link. -/
theorem claim_c4_retry_nil_response :
    getUrlWithDelay [.netErr "read: connection reset by peer"] = some (.nilPanic, 60)
    ∧ getUrlWithDelay [.status 429, .status 429, .status 503] = some (.done 503, 180)
    ∧ checkMdLinkTarget (fun _ => false) netC4 "W" "/" "https://slow.example.com/a"
        = some (.crashed "https://slow.example.com/a")
    ∧ checkMdLinkTarget (fun _ => false) (fun _ => [.status 429, .status 200]) "W" "/"
        "https://slow.example.com/a"
        = some (.httpDone "https://slow.example.com/a" 200
            "[INF] https://slow.example.com/a response: 200" true) := by
  exact ⟨rfl, rfl, by decide, by decide⟩

/-- Fresh report used for C5: `State` is the nil pointer, exactly as
`CheckGitMdLinks` hands it to `downloadGitArchive`. -/
def mdC5 : MdReportM :=
  ⟨"https://github.com/u/gmuv/blob/main", "https://github.com/u/gmuv/archive/refs/heads/main.zip",
    "gmuv.zip", "/work/.archives/gmuv", none, true, none⟩

/-- Download environment for C5: every local step succeeds and the server
answers 404 with an error page as body. -/
def dlEnvC5 : DlEnv := ⟨none, none, .ok (404, "404: Not Found"), none⟩

/-- C5 counterexample: a request answered with the non-success status 404
is NOT a failure of `downloadGitArchive` — the fetcher returns success and
stores the error body as the archive file (main.go:259-287 never examines
`resp.StatusCode`). -/
theorem claim_c5_counterexample :
    downloadGitArchive dlEnvC5 mdC5 = .ok (.stored mdC5 "404: Not Found")
    ∧ 400 ≤ 404 := ⟨rfl, by decide⟩

/-- C5 as amended: `downloadGitArchive` succeeds exactly when the HTTP
request does not error and directory creation, file creation and the body
copy all succeed — the response status is never examined, so any status
(404 included) yields success with the full response body stored; in each
of the claim's failure cases (request error, directory/file creation
failure, write failure) the fetcher writes the failure text through the
nil `State` pointer and panics instead of returning a download error. -/
theorem claim_c5_fetcher_outcomes (env : DlEnv) (md : MdReportM) (hst : md.state = none) :
    (∀ code body, env.getResult = .ok (code, body) → env.mkdirErr = none →
      env.createErr = none → env.copyErr = none →
      downloadGitArchive env md = .ok (.stored md body))
    ∧ ((env.mkdirErr ≠ none ∨ env.createErr ≠ none ∨ (∃ e, env.getResult = .error e)
        ∨ env.copyErr ≠ none) →
      downloadGitArchive env md = .error .nilDeref) := by
  constructor
  · intro code body hg hm hc2 hcp
    unfold downloadGitArchive
    rw [hm, hc2, hg, hcp]
  · intro h
    unfold downloadGitArchive
    cases hm : env.mkdirErr with
    | some e1 =>
      unfold assignStateDeref
      rw [hst]
      rfl
    | none =>
      cases hc2 : env.createErr with
      | some e2 =>
        unfold assignStateDeref
        rw [hst]
        rfl
      | none =>
        cases hg : env.getResult with
        | error e3 =>
          unfold assignStateDeref
          rw [hst]
          rfl
        | ok p =>
          obtain ⟨code, body⟩ := p
          cases hcp : env.copyErr with
          | some e4 =>
            unfold assignStateDeref
            rw [hst]
            rfl
          | none =>
            exfalso
            rcases h with h | h | ⟨e, he⟩ | h
            · exact h hm
            · exact h hc2
            · rw [hg] at he; exact Except.noConfusion he
            · exact h hcp

/-- Witness for the amended C5: a 200 response with body stored. -/
theorem claim_c5_witness :
    mdC5.state = none
    ∧ DlEnv.getResult ⟨none, none, .ok (200, "zipbytes"), none⟩ = .ok (200, "zipbytes")
    ∧ downloadGitArchive ⟨none, none, .ok (200, "zipbytes"), none⟩ mdC5
        = .ok (.stored mdC5 "zipbytes") :=
  ⟨rfl, rfl,
    (claim_c5_fetcher_outcomes ⟨none, none, .ok (200, "zipbytes"), none⟩ mdC5 rfl).1
      200 "zipbytes" rfl rfl rfl rfl⟩

/-- Repository whose download fails, for C6. -/
def repoC6 : RepositoryM := ⟨"gmuv", "https://github.com/u/gmuv", "main"⟩

/-- Environment for C6: the archive GET fails with a network error; all
later stages are irrelevant because the worker panics first. -/
def envC6 : RepoEnv :=
  ⟨⟨none, none, .error "dial tcp: connection refused", none⟩, .ok [], none,
    fun _ => false, fun _ => [], fun _ => []⟩

/-- C6: a repository whose archive download fails produces NO report at
all — `downloadGitArchive` writes the failure text through the nil
`State` pointer (main.go:277) and the goroutine panics, so the claimed
Failed-state report carrying the download failure text never exists
(extraction and validation indeed never run, by virtue of the panic). -/
theorem claim_c6_download_failure_panics :
    CheckGitMdLinks "/work/.archives" repoC6 envC6 = some (.error .nilDeref) := rfl

/-- Repository for C7 with one markdown file whose single link is fine. -/
def repoC7 : RepositoryM := ⟨"gmuv", "https://github.com/u/gmuv", "main"⟩

/-- Archive entry for C7: `README.md` containing one absolute link. -/
def entryC7 : ZipEntry := ⟨"gmuv-main/README.md", .content "[site](https://example.com)"⟩

/-- Environment for C7: download succeeds, the archive holds `entryC7`,
the regex matcher finds the one link, and `https://example.com` answers
200. -/
def envC7 : RepoEnv :=
  ⟨⟨none, none, .ok (200, "zipdata"), none⟩, .ok [entryC7], none,
    fun _ => false, fun _ => [.status 200], fun _ => ["[site](https://example.com)"]⟩

/-- The report C7's pipeline run ends with: top-level state is the
no-markdown message even though a markdown file with one (healthy) link
was processed. -/
def mdC7final : MdReportM :=
  ⟨"https://github.com/u/gmuv/blob/main", "https://github.com/u/gmuv/archive/refs/heads/main.zip",
    "gmuv.zip", "/work/.archives/gmuv", some "[INF] No markdown links were found.", true, none⟩

/-- C7: a repository with one markdown file whose every link validates ok
ends with top-level state "[INF] No markdown links were found." — not the
no-inactive/broken-links message.  `MdFileList` only ever receives files
with FAILING links (main.go:226-234), so it stays nil here and the
`AllLinksOK` branch of main.go:307-313 is unreachable. -/
theorem claim_c7_all_ok_message :
    CheckGitMdLinks "/work/.archives" repoC7 envC7 = some (.ok mdC7final)
    ∧ mdC7final.state = some "[INF] No markdown links were found."
    ∧ mdC7final.mdFileList = none
    ∧ mdC7final.allLinksOK = true
    ∧ ("[INF] No markdown links were found."
        == "[INF] No inactive/broken links were found.") = false := by
  exact ⟨by decide, rfl, rfl, rfl, by decide⟩

/-- Report state at the time `findAndCheckMdFile` runs in a healthy
pipeline: `State` was never assigned, so the pointer is nil. -/
def mdC8 : MdReportM :=
  ⟨"https://github.com/u/gmuv/blob/main", "https://github.com/u/gmuv/archive/refs/heads/main.zip",
    "gmuv.zip", "/work/.archives/gmuv", none, true, none⟩

/-- C8: when one markdown entry cannot be opened or read, main.go:203 and
main.go:211 READ `*md.State` to append the per-file error — but `State`
is still the nil pointer at that point, so the error path itself panics
instead of recording the message and continuing. -/
theorem claim_c8_entry_error_nil_deref :
    findAndCheckMdFile (fun _ => false) (fun _ => []) (fun _ => []) mdC8
        ⟨"gmuv-main/docs/broken.md", .openErr "zip: invalid checksum"⟩
      = some (.error .nilDeref)
    ∧ findAndCheckMdFile (fun _ => false) (fun _ => []) (fun _ => []) mdC8
        ⟨"gmuv-main/docs/broken.md", .readErr "unexpected EOF"⟩
      = some (.error .nilDeref) := ⟨rfl, rfl⟩

/-- C9: the barrier does not exist at runtime.  Worker 0's private
WaitGroup copy reaches zero right after its own `Done`, so it proceeds to
extraction/validation without waiting for any sibling download, and every
later worker's copy stays positive forever, so workers 1, 2, ... block in
`wg.Wait()` and never deliver a report. -/
theorem claim_c9_barrier_broken :
    barrierWaitReturns 0 = true
    ∧ workerDeliversReport 0 true = true
    ∧ workerDeliversReport 1 true = false
    ∧ workerDeliversReport 2 true = false := by decide

end GithubMdUrlCheck
